import Mathlib

/-!
# Verification of the VectorOS `NeuralMemoryManager` allocator

A shallow embedding of `src/vectoros_v2/kernel/neural_memory_manager.{h,cpp}`:
the fixed-size-block `MemoryPool` with its singly linked free list and slab
list, and the `NeuralMemoryManager` facade with its size-class table
(`pool_index_map`), allocation tracker (`allocated_blocks`), and atomic
performance counters.

Modelling conventions:
* Machine pointers are `Nat`; the null pointer is `0`.  Fresh payload
  addresses are produced from a `fresh` counter threaded through the state
  (the constructor starts it at `1`, so no pool block is ever at address 0).
  The header/payload offset arithmetic of `PoolBlock` is abstracted: the
  free list stores payload addresses directly.
* The `uint64_t`/`size_t` counters wrap modulo `2^64`; `add64`/`sub64`
  make the wrap explicit.
* Mutexes are modelled by an explicit `locked` flag on the pool: acquiring
  the (non-recursive) `std::mutex` while it is already held never returns,
  which the model reports as `MemErr.deadlock`.  `std::malloc` failure
  (`std::bad_alloc`) is not modelled: the in-model system allocator always
  succeeds, which only removes the out-of-memory failure path no claim
  mentions.
* Byte memory is a function `mem : Nat → Nat`; `std::memcpy` becomes a
  pointwise update.  `std::realloc` on a pointer the manager never issued
  is an interaction with the surrounding system allocator, so its reply is
  a parameter (`sys`, with `0` meaning the system allocator failed).
* The `MemoryBlock` fields no claim mentions (call site, timestamp, stack
  trace) and the corruption detector are omitted; `is_freed`, the size and
  the key pointer are kept.
-/

/-- `2^64`, the modulus of the C++ `uint64_t`/`size_t` counters. -/
def U64MOD : Nat := 18446744073709551616

/-- `uint64_t` addition (wraps modulo `2^64`). -/
def add64 (a b : Nat) : Nat := (a + b) % U64MOD

/-- `uint64_t` subtraction (wraps modulo `2^64`; `a` is kept `< 2^64`). -/
def sub64 (a b : Nat) : Nat := (a + U64MOD - b % U64MOD) % U64MOD

/-- Failure of an operation: acquiring a `std::mutex` the same call already
holds (a non-recursive mutex never grants it, so the call never returns). -/
inductive MemErr where
  | deadlock
  deriving DecidableEq, Repr

/-- Allocation-tracker record (`MemoryBlock` in `neural_memory_manager.h`,
restricted to the fields the claims mention). -/
structure MemoryBlock where
  ptr : Nat
  size : Nat
  is_freed : Bool
  deriving DecidableEq, Repr

/-- Exact-key lookup in an association list (`std::unordered_map::find`). -/
def lookupA {α : Type} (k : Nat) : List (Nat × α) → Option α
  | [] => none
  | (k', v) :: t => if k' = k then some v else lookupA k t

/-- Insert-or-overwrite (`map[k] = v` on `std::unordered_map`: keys stay
unique). -/
def mapInsert {α : Type} (l : List (Nat × α)) (k : Nat) (v : α) : List (Nat × α) :=
  match l with
  | [] => [(k, v)]
  | (k', v') :: t => if k' = k then (k, v) :: t else (k', v') :: mapInsert t k v

/-- In-place `it->second.is_freed = true` on the tracker map
(`NeuralMemoryManager::track_deallocation`'s map mutation). -/
def markFreed (l : List (Nat × MemoryBlock)) (k : Nat) : List (Nat × MemoryBlock) :=
  match l with
  | [] => []
  | (k', v) :: t =>
    if k' = k then (k', { v with is_freed := true }) :: t else (k', v) :: markFreed t k

/-- `MemoryPool`: one size class.  `allocated_blocks` is the slab list
(the raw backing allocations the pool owns), `free_list` the singly linked
list of currently unused payload addresses, `locked` the state of
`pool_mutex`. -/
structure MemoryPool where
  block_size : Nat
  free_list : List Nat
  allocated_blocks : List Nat
  allocated_count : Nat
  total_allocated : Nat
  locked : Bool
  deriving DecidableEq, Repr

/-- `MemoryPool::expand_pool`: takes `pool_mutex`, mallocs one slab of
`block_size + sizeof(PoolBlock)` bytes and links its (single) block at the
head of the free list.  Returns the expanded pool and the advanced fresh
counter. -/
def MemoryPool.expand_pool (p : MemoryPool) (fresh : Nat) :
    Except MemErr (MemoryPool × Nat) :=
  if p.locked then .error .deadlock
  else
    .ok ({ p with allocated_blocks := fresh :: p.allocated_blocks,
                  free_list := fresh :: p.free_list },
         fresh + p.block_size + 1)

/-- The `MemoryPool` constructor: starts empty and calls `expand_pool()`
once (the mutex is free during construction, so the expansion succeeds). -/
def MemoryPool.create (block_size fresh : Nat) : MemoryPool × Nat :=
  match MemoryPool.expand_pool
      { block_size := block_size, free_list := [], allocated_blocks := [],
        allocated_count := 0, total_allocated := 0, locked := false } fresh with
  | .ok r => r
  | .error _ =>
    ({ block_size := block_size, free_list := [], allocated_blocks := [],
       allocated_count := 0, total_allocated := 0, locked := false }, fresh)

/-- `MemoryPool::allocate`: takes `pool_mutex`; if the free list is empty it
calls `expand_pool()` — which tries to take `pool_mutex` again, so that path
deadlocks — then pops the head of the free list and bumps the counters. -/
def MemoryPool.allocate (p : MemoryPool) (fresh : Nat) :
    Except MemErr (Nat × MemoryPool × Nat) :=
  if p.locked then .error .deadlock
  else
    let pl := { p with locked := true }
    let expanded : Except MemErr (MemoryPool × Nat) :=
      if pl.free_list.isEmpty then pl.expand_pool fresh else .ok (pl, fresh)
    expanded.bind fun r =>
      match r.1.free_list with
      | [] => .error .deadlock
      | h :: t =>
        .ok (h, { r.1 with free_list := t,
                           allocated_count := add64 r.1.allocated_count 1,
                           total_allocated := add64 r.1.total_allocated r.1.block_size,
                           locked := false }, r.2)

/-- `MemoryPool::deallocate`: no-op on null, else takes `pool_mutex`,
recovers the block from the payload pointer and pushes it onto the free
list head, decrementing `allocated_count`. -/
def MemoryPool.deallocate (p : MemoryPool) (ptr : Nat) : Except MemErr MemoryPool :=
  if ptr = 0 then .ok p
  else if p.locked then .error .deadlock
  else .ok { p with free_list := ptr :: p.free_list,
                    allocated_count := sub64 p.allocated_count 1 }

/-- `NeuralMemoryManager` state: configuration flags, the pool vector and
the size → pool-index map, the allocation tracker, the performance
counters, the fresh-address supply and the byte memory. -/
structure NeuralMemoryManager where
  enable_leak_detection : Bool
  enable_performance_monitoring : Bool
  memory_pools : List MemoryPool
  pool_index_map : List (Nat × Nat)
  allocated_blocks : List (Nat × MemoryBlock)
  total_allocations : Nat
  total_deallocations : Nat
  total_bytes_allocated : Nat
  total_bytes_deallocated : Nat
  peak_memory_usage : Nat
  current_memory_usage : Nat
  fresh : Nat
  mem : Nat → Nat

/-- `NeuralMemoryManager::track_allocation`: insert (or overwrite) the
tracker record for `ptr`. -/
def NeuralMemoryManager.track_allocation (m : NeuralMemoryManager) (ptr size : Nat) :
    NeuralMemoryManager :=
  { m with allocated_blocks :=
      mapInsert m.allocated_blocks ptr { ptr := ptr, size := size, is_freed := false } }

/-- `NeuralMemoryManager::track_deallocation`: set `is_freed` on the record
for `ptr` if present, else do nothing. -/
def NeuralMemoryManager.track_deallocation (m : NeuralMemoryManager) (ptr : Nat) :
    NeuralMemoryManager :=
  { m with allocated_blocks := markFreed m.allocated_blocks ptr }

/-- `NeuralMemoryManager::update_performance_metrics`.  The CAS loop that
raises `peak_memory_usage` amounts to a `max` with the current usage. -/
def NeuralMemoryManager.update_performance_metrics (m : NeuralMemoryManager)
    (bytes : Nat) (is_alloc : Bool) : NeuralMemoryManager :=
  if is_alloc then
    let cur := add64 m.current_memory_usage bytes
    { m with total_allocations := add64 m.total_allocations 1,
             total_bytes_allocated := add64 m.total_bytes_allocated bytes,
             current_memory_usage := cur,
             peak_memory_usage := max m.peak_memory_usage cur }
  else
    { m with total_deallocations := add64 m.total_deallocations 1,
             total_bytes_deallocated := add64 m.total_bytes_deallocated bytes,
             current_memory_usage := sub64 m.current_memory_usage bytes }

/-- `diff = (size > entry) ? size - entry : entry - size` — the absolute
difference as computed by the closest-size scan. -/
def sizeDiff (size s : Nat) : Nat := if size > s then size - s else s - size

/-- The strict-improvement step of the closest-size scan in
`NeuralMemoryManager::get_pool_index` (accumulator is
`(best_index, min_diff)`). -/
def poolScanStep (size : Nat) (acc : Nat × Nat) (p : Nat × Nat) : Nat × Nat :=
  let diff := sizeDiff size p.1
  if diff < acc.2 then (p.2, diff) else acc

/-- `NeuralMemoryManager::get_pool_index`: exact size-class hit, else a
linear scan for the entry with minimal absolute difference, starting from
`best_index = 0`, `min_diff = SIZE_MAX`. -/
def NeuralMemoryManager.get_pool_index (m : NeuralMemoryManager) (size : Nat) : Nat :=
  match lookupA size m.pool_index_map with
  | some idx => idx
  | none => (m.pool_index_map.foldl (poolScanStep size) (0, U64MOD - 1)).1

/-- `NeuralMemoryManager::get_or_create_pool`: if the resolved index is in
range, use that pool; otherwise construct a pool whose block size is
exactly the requested size and record it in the table. -/
def NeuralMemoryManager.get_or_create_pool (m : NeuralMemoryManager) (size : Nat) :
    NeuralMemoryManager × Nat :=
  let idx := m.get_pool_index size
  if idx < m.memory_pools.length then (m, idx)
  else
    let np := MemoryPool.create size m.fresh
    ({ m with memory_pools := m.memory_pools ++ [np.1],
              pool_index_map := mapInsert m.pool_index_map size m.memory_pools.length,
              fresh := np.2 },
     m.memory_pools.length)

/-- The tail of `NeuralMemoryManager::allocate` after the pool has served
the pointer: track the allocation (if leak detection is on) and update the
metrics with the *requested* size (if monitoring is on). -/
def NeuralMemoryManager.allocAdmin (m2 : NeuralMemoryManager) (ptr size : Nat) :
    NeuralMemoryManager :=
  let m3 := if m2.enable_leak_detection then m2.track_allocation ptr size else m2
  if m3.enable_performance_monitoring then m3.update_performance_metrics size true else m3

/-- `NeuralMemoryManager::allocate`: resolve the pool, pop a block from it,
then run the tracking/metrics tail (`allocAdmin`). -/
def NeuralMemoryManager.allocate (m : NeuralMemoryManager) (size : Nat) :
    Except MemErr (Nat × NeuralMemoryManager) :=
  let gc := m.get_or_create_pool size
  match gc.1.memory_pools[gc.2]? with
  | none => .error .deadlock
  | some pool =>
    (pool.allocate gc.1.fresh).map fun r =>
      (r.1, NeuralMemoryManager.allocAdmin
              { gc.1 with memory_pools := gc.1.memory_pools.set gc.2 r.2.1,
                          fresh := r.2.2 }
              r.1 size)

/-- The pool-routing loop at the top of `NeuralMemoryManager::deallocate`:
the loop body consults only the tracker, so it runs at all only when the
pool vector is non-empty, and yields the pool index recovered from the
tracked size when that index is in range. -/
def NeuralMemoryManager.dealloc_pool_idx (m : NeuralMemoryManager) (ptr : Nat) :
    Option Nat :=
  if m.memory_pools.isEmpty then none
  else
    match lookupA ptr m.allocated_blocks with
    | none => none
    | some blk =>
      let idx := m.get_pool_index blk.size
      if idx < m.memory_pools.length then some idx else none

/-- The tail of `NeuralMemoryManager::deallocate` after the pool push-back:
mark the record freed (if leak detection is on) and decrement the metrics
by the tracked size (if monitoring is on and the pointer is tracked). -/
def NeuralMemoryManager.deallocAdmin (m2 : NeuralMemoryManager) (ptr : Nat) :
    NeuralMemoryManager :=
  let m3 := if m2.enable_leak_detection then m2.track_deallocation ptr else m2
  if m3.enable_performance_monitoring then
    match lookupA ptr m3.allocated_blocks with
    | some blk => m3.update_performance_metrics blk.size false
    | none => m3
  else m3

/-- `NeuralMemoryManager::deallocate`: no-op on null; route the pointer
back to its pool via the tracker, then run the tracking/metrics tail
(`deallocAdmin`). -/
def NeuralMemoryManager.deallocate (m : NeuralMemoryManager) (ptr : Nat) :
    Except MemErr NeuralMemoryManager :=
  if ptr = 0 then .ok m
  else
    (match m.dealloc_pool_idx ptr with
     | none => .ok m
     | some idx =>
       match m.memory_pools[idx]? with
       | none => .ok m
       | some pool =>
         (pool.deallocate ptr).map fun pool' =>
           { m with memory_pools := m.memory_pools.set idx pool' } :
      Except MemErr NeuralMemoryManager).bind
    fun m2 => .ok (m2.deallocAdmin ptr)

/-- `std::memcpy(dst, src, n)` on the byte memory (regions produced by the
fresh-address supply never overlap, so reading from the pre-copy memory is
exact). -/
def memcpyBytes (m : NeuralMemoryManager) (dst src n : Nat) : NeuralMemoryManager :=
  { m with mem := fun a => if dst ≤ a ∧ a < dst + n then m.mem (src + (a - dst)) else m.mem a }

/-- `NeuralMemoryManager::reallocate`.  `sys` is the system allocator's
reply to the `std::realloc` call made on an untracked pointer (`0` means
`realloc` returned null). -/
def NeuralMemoryManager.reallocate (m : NeuralMemoryManager) (ptr new_size sys : Nat) :
    Except MemErr (Nat × NeuralMemoryManager) :=
  if ptr = 0 then m.allocate new_size
  else if new_size = 0 then (m.deallocate ptr).map fun m2 => (0, m2)
  else
    match lookupA ptr m.allocated_blocks with
    | none =>
      if sys = 0 then .ok (0, m)
      else .ok (sys, m.track_allocation sys new_size)
    | some blk =>
      if new_size ≤ blk.size then .ok (ptr, m)
      else
        (m.allocate new_size).bind fun r =>
          if r.1 = 0 then .ok (r.1, r.2)
          else ((memcpyBytes r.2 r.1 ptr blk.size).deallocate ptr).map fun m3 => (r.1, m3)

/-- `NeuralMemoryManager::LeakReport`. -/
structure LeakReport where
  leaked_blocks : Nat
  leaked_bytes : Nat
  leaks : List MemoryBlock
  deriving DecidableEq, Repr

/-- The loop body of `NeuralMemoryManager::detect_leaks`. -/
def leakStep (r : LeakReport) (e : Nat × MemoryBlock) : LeakReport :=
  if e.2.is_freed then r
  else { leaked_blocks := r.leaked_blocks + 1,
         leaked_bytes := r.leaked_bytes + e.2.size,
         leaks := r.leaks ++ [e.2] }

/-- `NeuralMemoryManager::detect_leaks`: scan every tracker record,
collecting those not marked freed. -/
def NeuralMemoryManager.detect_leaks (m : NeuralMemoryManager) : LeakReport :=
  m.allocated_blocks.foldl leakStep { leaked_blocks := 0, leaked_bytes := 0, leaks := [] }

/-- The `NeuralMemoryManager` constructor: seeds one pool per common size
64, 128, …, 8192 and records each in `pool_index_map`.  (The corruption
detector it also initialises is outside the claims.) -/
def NeuralMemoryManager.create (leak perf : Bool) : NeuralMemoryManager :=
  [64, 128, 256, 512, 1024, 2048, 4096, 8192].foldl
    (fun m sz =>
      let np := MemoryPool.create sz m.fresh
      { m with memory_pools := m.memory_pools ++ [np.1],
               pool_index_map := mapInsert m.pool_index_map sz m.memory_pools.length,
               fresh := np.2 })
    { enable_leak_detection := leak, enable_performance_monitoring := perf,
      memory_pools := [], pool_index_map := [], allocated_blocks := [],
      total_allocations := 0, total_deallocations := 0, total_bytes_allocated := 0,
      total_bytes_deallocated := 0, peak_memory_usage := 0, current_memory_usage := 0,
      fresh := 1, mem := fun _ => 0 }

/-- A manager built with the default `MemoryPoolConfig` (leak detection and
performance monitoring both enabled). -/
def nmmDefault : NeuralMemoryManager := NeuralMemoryManager.create true true

/-- A manager whose configuration disables leak detection (performance
monitoring stays on). -/
def noLeakDefault : NeuralMemoryManager := NeuralMemoryManager.create false true

/-- `NeuralUniquePtr<T>`, reduced to its two data members `ptr` and
`managed`. -/
structure NeuralUniquePtr where
  ptr : Nat
  managed : Bool
  deriving DecidableEq, Repr

/-- `NeuralUniquePtr::release`: detach without freeing; the handle keeps
`managed = false` forever after. -/
def NeuralUniquePtr.release (h : NeuralUniquePtr) : Nat × NeuralUniquePtr :=
  (h.ptr, { ptr := 0, managed := false })

/-- The `NeuralUniquePtr` move constructor: `(new handle, moved-from
source)`. -/
def NeuralUniquePtr.moveFrom (h : NeuralUniquePtr) : NeuralUniquePtr × NeuralUniquePtr :=
  ({ ptr := h.ptr, managed := h.managed }, { ptr := 0, managed := false })

/-- `NeuralUniquePtr::reset(p)`: free the old pointer when owning, store
`p` — and leave `managed` untouched. -/
def NeuralUniquePtr.reset (h : NeuralUniquePtr) (p : Nat) (mgr : NeuralMemoryManager) :
    NeuralUniquePtr × Except MemErr NeuralMemoryManager :=
  if h.ptr ≠ 0 ∧ h.managed = true then
    ({ ptr := p, managed := h.managed }, mgr.deallocate h.ptr)
  else
    ({ ptr := p, managed := h.managed }, .ok mgr)

/-- The `NeuralUniquePtr` destructor's effect on the manager: deallocate
only when non-null and owning. -/
def NeuralUniquePtr.destruct (h : NeuralUniquePtr) (mgr : NeuralMemoryManager) :
    Except MemErr NeuralMemoryManager :=
  if h.ptr ≠ 0 ∧ h.managed = true then mgr.deallocate h.ptr else .ok mgr

/-! ## Concrete execution states used by the claim theorems

Each extractor takes the `.ok` branch of a step whose success is asserted
(by `rfl`) in the theorem that uses it, so the fallback values are inert. -/

/-- `p = allocate(64)` on a default-config manager: the returned pointer. -/
def c1p : Nat :=
  match nmmDefault.allocate 64 with | .ok r => r.1 | .error _ => 0

/-- `p = allocate(64)` on a default-config manager: the resulting state. -/
def c1m1 : NeuralMemoryManager :=
  match nmmDefault.allocate 64 with | .ok r => r.2 | .error _ => nmmDefault

/-- State after the first `deallocate(p)`. -/
def c1m2 : NeuralMemoryManager :=
  match c1m1.deallocate c1p with | .ok m => m | .error _ => c1m1

/-- State after the second `deallocate(p)`. -/
def c1m3 : NeuralMemoryManager :=
  match c1m2.deallocate c1p with | .ok m => m | .error _ => c1m2

/-- `allocate(100)` on a default-config manager (pointer, state). -/
def c3res : Nat × NeuralMemoryManager :=
  match nmmDefault.allocate 100 with | .ok r => r | .error _ => (0, nmmDefault)

/-- Block size of the size class that serves a request of 100 bytes. -/
def c3BlockSize : Nat :=
  match nmmDefault.memory_pools[nmmDefault.get_pool_index 100]? with
  | some p => p.block_size
  | none => 0

/-- A default-config manager holding one live 64-byte allocation at `c1p`. -/
def c5st : NeuralMemoryManager := c1m1

/-- `allocate(100)` on `c5st` (the growing-`reallocate` path): pointer. -/
def c5gp : Nat :=
  match c5st.allocate 100 with | .ok r => r.1 | .error _ => 0

/-- `allocate(100)` on `c5st` (the growing-`reallocate` path): state. -/
def c5gm : NeuralMemoryManager :=
  match c5st.allocate 100 with | .ok r => r.2 | .error _ => c5st

/-- A size-64 pool that has served its only free block: its free list is
empty, so the next `allocate` enters the expansion path. -/
def c8pool : MemoryPool :=
  match (MemoryPool.create 64 1).1.allocate (MemoryPool.create 64 1).2 with
  | .ok r => r.2.1
  | .error _ => (MemoryPool.create 64 1).1

/-- A manager whose size-class table and pool vector are still empty (the
state `get_or_create_pool` sees before any table entry exists). -/
def emptyTableMgr : NeuralMemoryManager :=
  { enable_leak_detection := true, enable_performance_monitoring := true,
    memory_pools := [], pool_index_map := [], allocated_blocks := [],
    total_allocations := 0, total_deallocations := 0, total_bytes_allocated := 0,
    total_bytes_deallocated := 0, peak_memory_usage := 0, current_memory_usage := 0,
    fresh := 5, mem := fun _ => 0 }

/-! ## Theorems -/

/-- C1: the first half of the claim holds on the run
`p = allocate(64); deallocate(p); deallocate(p)` — one `deallocate` returns
`current_usage` to its pre-allocation value — but the second half fails:
the code never consults `is_freed`, so the second `deallocate(p)` pushes
`p` onto the pool's free list a second time and decrements
`current_memory_usage` again (wrapping the `uint64_t`), instead of being a
no-op. -/
theorem c1_second_deallocate_not_noop :
    nmmDefault.allocate 64 = .ok (c1p, c1m1) ∧
    c1m1.deallocate c1p = .ok c1m2 ∧
    c1m2.deallocate c1p = .ok c1m3 ∧
    c1m2.current_memory_usage = nmmDefault.current_memory_usage ∧
    c1m3.current_memory_usage ≠ c1m2.current_memory_usage ∧
    c1m3.memory_pools.map MemoryPool.free_list ≠
      c1m2.memory_pools.map MemoryPool.free_list :=
  ⟨rfl, rfl, rfl, by decide, by decide, by decide⟩

/-- C2: the `current_usage` invariant fails on the same run: after
`allocate(64)` and two `deallocate(p)` the metrics record 128 bytes
deallocated against 64 allocated, and `current_memory_usage` has wrapped
to `2^64 - 64`. -/
theorem c2_usage_underflows :
    nmmDefault.allocate 64 = .ok (c1p, c1m1) ∧
    c1m1.deallocate c1p = .ok c1m2 ∧
    c1m2.deallocate c1p = .ok c1m3 ∧
    c1m3.total_bytes_allocated = 64 ∧
    c1m3.total_bytes_deallocated = 128 ∧
    c1m3.total_bytes_allocated < c1m3.total_bytes_deallocated ∧
    c1m3.current_memory_usage = U64MOD - 64 :=
  ⟨rfl, rfl, rfl, by decide, by decide, by decide, by decide⟩

/-- C3 (counterexample): `allocate(100)` on a fresh default manager is
served by the 128-byte size class, yet `current_memory_usage` grows by the
requested 100 bytes, not by the block size 128. -/
theorem c3_counterexample :
    nmmDefault.allocate 100 = .ok c3res ∧
    c3BlockSize = 128 ∧
    c3res.2.current_memory_usage = nmmDefault.current_memory_usage + 100 ∧
    ¬ c3res.2.current_memory_usage = nmmDefault.current_memory_usage + c3BlockSize :=
  ⟨rfl, by decide, by decide, by decide⟩

/-- C8: the claim fails — `MemoryPool::allocate` on an unlocked pool whose
free list is empty does not perform one expansion and pop a block; it
calls `expand_pool()` while already holding `pool_mutex`, re-acquiring the
non-recursive mutex it holds, and never returns. -/
theorem c8_allocate_deadlocks_on_empty_free_list (p : MemoryPool) (fresh : Nat)
    (hl : p.locked = false) (he : p.free_list = []) :
    p.allocate fresh = .error .deadlock := by
  simp [MemoryPool.allocate, MemoryPool.expand_pool, Except.bind, hl, he]

/-- C8 witness: the pool reached by constructing a 64-byte pool and
allocating once is unlocked with an empty free list, and the next
`allocate` deadlocks. -/
theorem c8_allocate_deadlocks_witness :
    (MemoryPool.create 64 1).1.allocate (MemoryPool.create 64 1).2 = .ok (1, c8pool, 66) ∧
    c8pool.locked = false ∧ c8pool.free_list = [] ∧
    c8pool.allocate 66 = .error .deadlock :=
  ⟨rfl, rfl, rfl, c8_allocate_deadlocks_on_empty_free_list c8pool 66 rfl rfl⟩

/-- C10: a `NeuralUniquePtr` that has been `release`d (or moved from) has
`managed = false`; on any such non-owning handle, `reset(p)` stores `p`
without touching the manager, leaves `managed = false` (ownership is not
restored), and the handle's destructor thereafter deallocates nothing. -/
theorem c10_release_is_permanent (h : NeuralUniquePtr) (p : Nat)
    (mgr mgr2 : NeuralMemoryManager) :
    h.release.2.managed = false ∧
    h.moveFrom.2.managed = false ∧
    (∀ g : NeuralUniquePtr, g.managed = false →
      (g.reset p mgr).1.ptr = p ∧
      (g.reset p mgr).1.managed = false ∧
      (g.reset p mgr).2 = .ok mgr ∧
      (g.reset p mgr).1.destruct mgr2 = .ok mgr2) := by
  refine ⟨rfl, rfl, fun g hg => ?_⟩
  simp [NeuralUniquePtr.reset, NeuralUniquePtr.destruct, hg]

/-- C10 witness: releasing an owning handle at address 7 leaves a handle
for which `reset 42` stores 42 but restores no ownership, and whose
destructor leaves the default manager untouched. -/
theorem c10_release_is_permanent_witness :
    (NeuralUniquePtr.release { ptr := 7, managed := true }).2.managed = false ∧
    ((NeuralUniquePtr.release { ptr := 7, managed := true }).2.reset 42 nmmDefault).1.ptr = 42 ∧
    ((NeuralUniquePtr.release { ptr := 7, managed := true }).2.reset 42 nmmDefault).1.managed = false ∧
    ((NeuralUniquePtr.release { ptr := 7, managed := true }).2.reset 42 nmmDefault).1.destruct
      nmmDefault = .ok nmmDefault := by
  have h := c10_release_is_permanent { ptr := 7, managed := true } 42 nmmDefault nmmDefault
  obtain ⟨h1, -, h3⟩ := h
  obtain ⟨r1, r2, -, r4⟩ := h3 _ h1
  exact ⟨h1, r1, r2, r4⟩

/-- `markFreed` leaves a map untouched when the key is absent. -/
theorem markFreed_of_none (l : List (Nat × MemoryBlock)) (k : Nat)
    (h : lookupA k l = none) : markFreed l k = l := by
  induction l with
  | nil => rfl
  | cons e t ih =>
    obtain ⟨k', v⟩ := e
    by_cases hk : k' = k
    · simp [lookupA, hk] at h
    · simp only [lookupA, hk, if_false, if_neg hk] at h
      simp [markFreed, hk, ih h]

/-- Looking up the key just written by `mapInsert` returns the new value. -/
theorem lookupA_mapInsert {α : Type} (l : List (Nat × α)) (k : Nat) (v : α) :
    lookupA k (mapInsert l k v) = some v := by
  induction l with
  | nil => simp [mapInsert, lookupA]
  | cons e t ih =>
    obtain ⟨k', v'⟩ := e
    by_cases hk : k' = k
    · simp [mapInsert, hk, lookupA]
    · simp [mapInsert, hk, lookupA, ih]

/-- C4: `deallocate(ptr)` on a null or never-tracked pointer is a silent
no-op — the manager state (every pool free list, the tracker, every
metrics counter) is returned unchanged, and no pool arithmetic runs. -/
theorem c4_deallocate_untracked_is_noop (m : NeuralMemoryManager) (ptr : Nat)
    (h : ptr = 0 ∨ lookupA ptr m.allocated_blocks = none) :
    m.deallocate ptr = .ok m := by
  rcases h with h0 | hnone
  · simp [NeuralMemoryManager.deallocate, h0]
  · have ht : m.track_deallocation ptr = m := by
      unfold NeuralMemoryManager.track_deallocation
      rw [markFreed_of_none _ _ hnone]
    have hda : m.deallocAdmin ptr = m := by
      unfold NeuralMemoryManager.deallocAdmin
      cases hl : m.enable_leak_detection <;>
        cases hpm : m.enable_performance_monitoring <;> simp [hl, hpm, ht, hnone]
    by_cases h0 : ptr = 0
    · simp [NeuralMemoryManager.deallocate, h0]
    · have hidx : m.dealloc_pool_idx ptr = none := by
        simp [NeuralMemoryManager.dealloc_pool_idx, hnone]
      simp [NeuralMemoryManager.deallocate, h0, hidx, Except.bind, hda]

/-- C4 witness: on the default manager, deallocating null and deallocating
the never-issued address 12345 both return the state unchanged. -/
theorem c4_deallocate_untracked_is_noop_witness :
    nmmDefault.deallocate 0 = .ok nmmDefault ∧
    nmmDefault.deallocate 12345 = .ok nmmDefault :=
  ⟨c4_deallocate_untracked_is_noop nmmDefault 0 (Or.inl rfl),
   c4_deallocate_untracked_is_noop nmmDefault 12345 (Or.inr (by decide))⟩

/-- The `detect_leaks` scan, from an arbitrary accumulator. -/
theorem detect_leaks_foldl (l : List (Nat × MemoryBlock)) (acc : LeakReport) :
    l.foldl leakStep acc =
      { leaked_blocks := acc.leaked_blocks + (l.filter fun e => !e.2.is_freed).length,
        leaked_bytes :=
          acc.leaked_bytes + ((l.filter fun e => !e.2.is_freed).map fun e => e.2.size).sum,
        leaks := acc.leaks ++ (l.filter fun e => !e.2.is_freed).map fun e => e.2 } := by
  induction l generalizing acc with
  | nil => simp
  | cons e t ih =>
    rw [List.foldl_cons, ih]
    by_cases hf : e.2.is_freed
    · simp [leakStep, hf]
    · have hf' : e.2.is_freed = false := by simpa using hf
      have hfc : List.filter (fun x => !x.2.is_freed) (e :: t) =
          e :: List.filter (fun x => !x.2.is_freed) t := by
        simp [List.filter_cons, hf']
      simp only [leakStep, hf', Bool.false_eq_true, if_false, hfc, List.map_cons,
        List.length_cons, List.sum_cons, LeakReport.mk.injEq]
      exact ⟨by omega, by omega, by simp⟩

/-- C6: for every manager state, `detect_leaks` returns exactly the
tracked records whose `is_freed` flag is false, with `leaked_blocks` their
count and `leaked_bytes` the sum of their sizes. -/
theorem c6_detect_leaks_exact (m : NeuralMemoryManager) :
    m.detect_leaks.leaks =
      (m.allocated_blocks.filter fun e => !e.2.is_freed).map (fun e => e.2) ∧
    m.detect_leaks.leaked_blocks =
      (m.allocated_blocks.filter fun e => !e.2.is_freed).length ∧
    m.detect_leaks.leaked_bytes =
      ((m.allocated_blocks.filter fun e => !e.2.is_freed).map fun e => e.2.size).sum := by
  unfold NeuralMemoryManager.detect_leaks
  rw [detect_leaks_foldl]
  exact ⟨by simp, by simp, by simp⟩

/-- C9: `reallocate` on a non-null pointer that the tracker has never seen,
with a positive size, skips the pool path entirely: it hands the pointer to
the system `realloc` (whose reply is `sys`), and on success records the new
pointer in the tracker — regardless of `enable_leak_detection` — before
returning it; pools and metrics are untouched either way. -/
theorem c9_untracked_realloc_uses_system (m : NeuralMemoryManager)
    (ptr new_size sys : Nat) (hp : ptr ≠ 0) (hn : new_size ≠ 0)
    (ht : lookupA ptr m.allocated_blocks = none) :
    m.reallocate ptr new_size sys =
      .ok (sys, if sys = 0 then m else m.track_allocation sys new_size) ∧
    (sys ≠ 0 →
      lookupA sys (m.track_allocation sys new_size).allocated_blocks =
        some { ptr := sys, size := new_size, is_freed := false }) ∧
    (m.track_allocation sys new_size).memory_pools = m.memory_pools ∧
    (m.track_allocation sys new_size).current_memory_usage = m.current_memory_usage ∧
    (m.track_allocation sys new_size).total_bytes_allocated = m.total_bytes_allocated := by
  refine ⟨?_, fun _ => lookupA_mapInsert _ _ _, rfl, rfl, rfl⟩
  by_cases hs : sys = 0
  · simp [NeuralMemoryManager.reallocate, hp, hn, ht, hs]
  · simp [NeuralMemoryManager.reallocate, hp, hn, ht, hs]

/-- C9 witness: on a manager built with leak detection *disabled*,
`reallocate(5, 40)` with system reply 9 returns 9 and has recorded 9 in the
tracker. -/
theorem c9_untracked_realloc_uses_system_witness :
    noLeakDefault.enable_leak_detection = false ∧
    noLeakDefault.reallocate 5 40 9 = .ok (9, noLeakDefault.track_allocation 9 40) ∧
    lookupA 9 (noLeakDefault.track_allocation 9 40).allocated_blocks =
      some { ptr := 9, size := 40, is_freed := false } := by
  have h := c9_untracked_realloc_uses_system noLeakDefault 5 40 9
    (by decide) (by decide) (by decide)
  exact ⟨by decide, by simpa using h.1, h.2.1 (by decide)⟩

/-- A successful `MemoryPool::allocate` implies the pool was unlocked with
a non-empty free list, and the returned pointer is the free-list head (the
empty-free-list path deadlocks in `expand_pool`, cf. the C8 theorem). -/
theorem MemoryPool.allocate_ok (p : MemoryPool) (f : Nat)
    (r : Nat × MemoryPool × Nat) (h : p.allocate f = .ok r) :
    p.locked = false ∧ ∃ t, p.free_list = r.1 :: t ∧ r.2.2 = f := by
  unfold MemoryPool.allocate at h
  by_cases hl : p.locked = true
  · simp [hl] at h
  · simp only [Bool.not_eq_true] at hl
    cases hfl : p.free_list with
    | nil =>
      simp [hl, hfl, MemoryPool.expand_pool, Except.bind] at h
    | cons a t =>
      simp only [hl, Bool.false_eq_true, if_false, hfl, List.isEmpty_cons,
        Except.bind, Except.ok.injEq] at h
      subst h
      exact ⟨hl, t, rfl, rfl⟩

/-- `get_or_create_pool` leaves the configuration flags, the tracker, the
metrics and the byte memory unchanged. -/
theorem get_or_create_pool_preserves (m : NeuralMemoryManager) (size : Nat) :
    (m.get_or_create_pool size).1.enable_leak_detection = m.enable_leak_detection ∧
    (m.get_or_create_pool size).1.enable_performance_monitoring =
      m.enable_performance_monitoring ∧
    (m.get_or_create_pool size).1.allocated_blocks = m.allocated_blocks ∧
    (m.get_or_create_pool size).1.current_memory_usage = m.current_memory_usage ∧
    (m.get_or_create_pool size).1.mem = m.mem := by
  simp only [NeuralMemoryManager.get_or_create_pool]
  split <;> exact ⟨rfl, rfl, rfl, rfl, rfl⟩

/-- The pool vector after `get_or_create_pool` is either untouched or has
exactly one freshly constructed pool appended. -/
theorem get_or_create_pool_pools (m : NeuralMemoryManager) (size : Nat) :
    (m.get_or_create_pool size).1.memory_pools = m.memory_pools ∨
    (m.get_or_create_pool size).1.memory_pools =
      m.memory_pools ++ [(MemoryPool.create size m.fresh).1] := by
  simp only [NeuralMemoryManager.get_or_create_pool]
  split
  · exact .inl rfl
  · exact .inr rfl

/-- `allocAdmin` changes `current_memory_usage` by the requested size
exactly when performance monitoring is on, and never touches the byte
memory. -/
theorem allocAdmin_current (m2 : NeuralMemoryManager) (ptr size : Nat) :
    (m2.allocAdmin ptr size).current_memory_usage =
      (if m2.enable_performance_monitoring = true
       then add64 m2.current_memory_usage size else m2.current_memory_usage) ∧
    (m2.allocAdmin ptr size).mem = m2.mem := by
  unfold NeuralMemoryManager.allocAdmin
  cases hl : m2.enable_leak_detection <;>
    cases hpm : m2.enable_performance_monitoring <;>
      simp [hl, hpm, NeuralMemoryManager.track_allocation,
        NeuralMemoryManager.update_performance_metrics]

/-- C3 (amended): every successful `allocate(n)` under performance
monitoring returns a non-null pointer and raises `current_memory_usage` by
exactly the requested size `n` (modulo `2^64`) — not by the serving size
class's block size.  Well-formedness hypotheses: no free list holds the
null address and the fresh-address supply is non-null, which the
constructor establishes and every operation preserves. -/
theorem c3_amended_usage_grows_by_requested_size (m : NeuralMemoryManager)
    (n p : Nat) (m' : NeuralMemoryManager)
    (hperf : m.enable_performance_monitoring = true)
    (hwf : ∀ pool ∈ m.memory_pools, 0 ∉ pool.free_list)
    (hfr : m.fresh ≠ 0)
    (h : m.allocate n = .ok (p, m')) :
    p ≠ 0 ∧ m'.current_memory_usage = add64 m.current_memory_usage n := by
  simp only [NeuralMemoryManager.allocate] at h
  cases hpool : (m.get_or_create_pool n).1.memory_pools[(m.get_or_create_pool n).2]? with
  | none => rw [hpool] at h; exact absurd h (by simp)
  | some pool =>
    rw [hpool] at h
    dsimp only at h
    cases hma : pool.allocate (m.get_or_create_pool n).1.fresh with
    | error e => rw [hma] at h; exact absurd h (by simp [Except.map])
    | ok r =>
      rw [hma] at h
      simp only [Except.map, Except.ok.injEq, Prod.mk.injEq] at h
      obtain ⟨hp, hm'⟩ := h
      obtain ⟨-, t, hhead, -⟩ := MemoryPool.allocate_ok _ _ _ hma
      have hmem : pool ∈ (m.get_or_create_pool n).1.memory_pools :=
        List.getElem?_mem hpool
      have hpz : r.1 ≠ 0 := by
        rcases get_or_create_pool_pools m n with hpl | hpl
        · rw [hpl] at hmem
          intro h0
          apply hwf pool hmem
          rw [hhead, h0]
          exact List.mem_cons_self _ _
        · rw [hpl] at hmem
          rcases List.mem_append.mp hmem with hin | hnew
          · intro h0
            apply hwf pool hin
            rw [hhead, h0]
            exact List.mem_cons_self _ _
          · have hpe : pool = (MemoryPool.create n m.fresh).1 := by
              simpa using hnew
            have hfl : pool.free_list = [m.fresh] := by rw [hpe]; rfl
            rw [hfl] at hhead
            intro h0
            exact hfr ((List.cons.inj hhead).1.trans h0)
      obtain ⟨-, hl2, -, hl4, -⟩ := get_or_create_pool_preserves m n
      refine ⟨hp ▸ hpz, ?_⟩
      rw [← hm', (allocAdmin_current _ r.1 n).1]
      dsimp only
      rw [hl2, hperf, if_pos rfl, hl4]

/-- C3 (amended) witness: `allocate(100)` on the default manager returns a
non-null pointer and raises `current_memory_usage` by exactly 100 (the
serving class's block size is 128, cf. the counterexample). -/
theorem c3_amended_usage_grows_by_requested_size_witness :
    nmmDefault.allocate 100 = .ok c3res ∧ c3res.1 ≠ 0 ∧
    c3res.2.current_memory_usage = add64 nmmDefault.current_memory_usage 100 := by
  have h := c3_amended_usage_grows_by_requested_size nmmDefault 100 c3res.1 c3res.2
    rfl (by decide) (by decide) rfl
  exact ⟨rfl, h.1, h.2⟩

/-- The closest-size scan, from an arbitrary accumulator: the result is the
accumulator itself or comes from a list entry, its distance never exceeds
the accumulator's, and it is a lower bound on every entry's distance. -/
theorem poolScan_foldl (size : Nat) (l : List (Nat × Nat)) (acc : Nat × Nat) :
    (l.foldl (poolScanStep size) acc = acc ∨
      ∃ q ∈ l, l.foldl (poolScanStep size) acc = (q.2, sizeDiff size q.1)) ∧
    (l.foldl (poolScanStep size) acc).2 ≤ acc.2 ∧
    ∀ q ∈ l, (l.foldl (poolScanStep size) acc).2 ≤ sizeDiff size q.1 := by
  induction l generalizing acc with
  | nil => exact ⟨.inl rfl, le_refl _, by simp⟩
  | cons e t ih =>
    rw [List.foldl_cons]
    obtain ⟨ihp, ihle, ihall⟩ := ih (poolScanStep size acc e)
    by_cases hd : sizeDiff size e.1 < acc.2
    · have hstep : poolScanStep size acc e = (e.2, sizeDiff size e.1) := by
        simp [poolScanStep, hd]
      have hles : (t.foldl (poolScanStep size) (poolScanStep size acc e)).2 ≤
          sizeDiff size e.1 := by
        rw [hstep] at ihle ⊢; exact ihle
      refine ⟨?_, le_trans hles (le_of_lt hd), ?_⟩
      · rcases ihp with he | ⟨q, hq, he⟩
        · exact .inr ⟨e, List.mem_cons_self _ _, he.trans hstep⟩
        · exact .inr ⟨q, List.mem_cons_of_mem _ hq, he⟩
      · intro q hq
        rcases List.mem_cons.mp hq with rfl | hq
        · exact hles
        · exact ihall q hq
    · have hstep : poolScanStep size acc e = acc := by
        simp [poolScanStep, hd]
      rw [hstep] at ihp ihle ihall ⊢
      refine ⟨?_, ihle, ?_⟩
      · rcases ihp with he | ⟨q, hq, he⟩
        · exact .inl he
        · exact .inr ⟨q, List.mem_cons_of_mem _ hq, he⟩
      · intro q hq
        rcases List.mem_cons.mp hq with rfl | hq
        · exact le_trans ihle (Nat.not_lt.mp hd)
        · exact ihall q hq

/-- C7: size-class resolution.  (1) An exact size class is returned.
(2) Otherwise (and whenever the table is non-empty, every distance being
below the `SIZE_MAX` sentinel) the selected entry has minimal absolute
difference from the request.  (3) When the table has no entry yet, a new
pool whose block size is exactly the request is created on demand, at
index 0, and recorded in the table. -/
theorem c7_size_class_resolution (m : NeuralMemoryManager) (size : Nat) :
    (∀ idx, lookupA size m.pool_index_map = some idx → m.get_pool_index size = idx) ∧
    (lookupA size m.pool_index_map = none →
      ∀ q₀, q₀ ∈ m.pool_index_map →
      (∀ q, q ∈ m.pool_index_map → sizeDiff size q.1 < U64MOD - 1) →
      ∃ q, q ∈ m.pool_index_map ∧ m.get_pool_index size = q.2 ∧
        ∀ q', q' ∈ m.pool_index_map → sizeDiff size q.1 ≤ sizeDiff size q'.1) ∧
    (m.pool_index_map = [] → m.memory_pools = [] →
      (m.get_or_create_pool size).2 = 0 ∧
      ∃ pool, (m.get_or_create_pool size).1.memory_pools = [pool] ∧
        pool.block_size = size ∧
        lookupA size (m.get_or_create_pool size).1.pool_index_map = some 0) := by
  refine ⟨?_, ?_, ?_⟩
  · intro idx hs
    unfold NeuralMemoryManager.get_pool_index
    rw [hs]
  · intro hn q₀ hq₀ hbound
    obtain ⟨hprov, -, hall⟩ := poolScan_foldl size m.pool_index_map (0, U64MOD - 1)
    have hgp : m.get_pool_index size =
        (m.pool_index_map.foldl (poolScanStep size) (0, U64MOD - 1)).1 := by
      unfold NeuralMemoryManager.get_pool_index
      rw [hn]
    rcases hprov with he | ⟨q, hq, he⟩
    · exfalso
      have h1 := hall q₀ hq₀
      rw [he] at h1
      exact absurd h1 (Nat.not_le.mpr (hbound q₀ hq₀))
    · refine ⟨q, hq, ?_, ?_⟩
      · rw [hgp, he]
      · intro q' hq'
        have h2 := hall q' hq'
        rw [he] at h2
        exact h2
  · intro hmap hpools
    have hidx : m.get_pool_index size = 0 := by
      unfold NeuralMemoryManager.get_pool_index
      rw [hmap]
      rfl
    refine ⟨by simp [NeuralMemoryManager.get_or_create_pool, hidx, hpools], ?_⟩
    refine ⟨(MemoryPool.create size m.fresh).1, ?_, rfl, ?_⟩
    · simp [NeuralMemoryManager.get_or_create_pool, hidx, hpools]
    · simp [NeuralMemoryManager.get_or_create_pool, hidx, hpools, hmap, mapInsert, lookupA]

/-- C7 witness: on the default manager, 64 is an exact hit at index 0;
100 (no exact class) resolves to index 1 — the 128-byte class, the nearest
one; and on a manager with an empty table, requesting 300 bytes creates a
pool of block size exactly 300 at index 0 and records it. -/
theorem c7_size_class_resolution_witness :
    nmmDefault.get_pool_index 64 = 0 ∧
    nmmDefault.get_pool_index 100 = 1 ∧
    sizeDiff 100 128 ≤ sizeDiff 100 64 ∧
    (emptyTableMgr.get_or_create_pool 300).2 = 0 ∧
    (emptyTableMgr.get_or_create_pool 300).1.memory_pools.map MemoryPool.block_size
      = [300] ∧
    lookupA 300 (emptyTableMgr.get_or_create_pool 300).1.pool_index_map = some 0 := by
  have h1 := (c7_size_class_resolution nmmDefault 64).1 0 (by decide)
  obtain ⟨q, hq, heq, hmin⟩ := (c7_size_class_resolution nmmDefault 100).2.1
    (by decide) (64, 0) (by decide) (by decide)
  obtain ⟨h3a, pool, h3b, h3c, h3d⟩ :=
    (c7_size_class_resolution emptyTableMgr 300).2.2 rfl rfl
  have hq2 : q.2 = 1 := by
    rw [← heq]; decide
  have hq1 : q = (128, 1) := by
    fin_cases hq <;> revert hq2 <;> decide
  have hs := hmin (64, 0) (by decide)
  rw [hq1] at hs
  refine ⟨h1, heq.trans hq2, hs, h3a, ?_, h3d⟩
  rw [h3b, List.map_singleton, h3c]

/-- `deallocAdmin` never touches the byte memory. -/
theorem deallocAdmin_mem (m : NeuralMemoryManager) (ptr : Nat) :
    (m.deallocAdmin ptr).mem = m.mem := by
  unfold NeuralMemoryManager.deallocAdmin
  cases hl : m.enable_leak_detection <;>
    cases hpm : m.enable_performance_monitoring <;>
      simp only [hl, hpm, Bool.false_eq_true, if_false, if_true,
        NeuralMemoryManager.track_deallocation] <;>
      (try split) <;>
      simp [NeuralMemoryManager.update_performance_metrics]

/-- A successful `deallocate` never touches the byte memory. -/
theorem deallocate_mem (m m' : NeuralMemoryManager) (ptr : Nat)
    (h : m.deallocate ptr = .ok m') : m'.mem = m.mem := by
  unfold NeuralMemoryManager.deallocate at h
  by_cases h0 : ptr = 0
  · simp only [h0, if_true] at h
    obtain rfl : m = m' := by simpa using h
    rfl
  · simp only [h0, if_false] at h
    cases hidx : m.dealloc_pool_idx ptr with
    | none =>
      rw [hidx] at h
      simp only [Except.bind, Except.ok.injEq] at h
      rw [← h]
      exact deallocAdmin_mem _ _
    | some idx =>
      rw [hidx] at h
      dsimp only at h
      cases hpe : m.memory_pools[idx]? with
      | none =>
        rw [hpe] at h
        simp only [Except.bind, Except.ok.injEq] at h
        rw [← h]
        exact deallocAdmin_mem _ _
      | some pool =>
        rw [hpe] at h
        dsimp only at h
        cases hpd : pool.deallocate ptr with
        | error e =>
          rw [hpd] at h
          exact absurd h (by simp [Except.map, Except.bind])
        | ok pool' =>
          rw [hpd] at h
          simp only [Except.map, Except.bind, Except.ok.injEq] at h
          rw [← h]
          exact (deallocAdmin_mem _ _).trans rfl

/-- A successful `allocate` never touches the byte memory. -/
theorem allocate_mem (m : NeuralMemoryManager) (n p : Nat) (m' : NeuralMemoryManager)
    (h : m.allocate n = .ok (p, m')) : m'.mem = m.mem := by
  simp only [NeuralMemoryManager.allocate] at h
  cases hpool : (m.get_or_create_pool n).1.memory_pools[(m.get_or_create_pool n).2]? with
  | none => rw [hpool] at h; exact absurd h (by simp)
  | some pool =>
    rw [hpool] at h
    dsimp only at h
    cases hma : pool.allocate (m.get_or_create_pool n).1.fresh with
    | error e => rw [hma] at h; exact absurd h (by simp [Except.map])
    | ok r =>
      rw [hma] at h
      simp only [Except.map, Except.ok.injEq, Prod.mk.injEq] at h
      obtain ⟨-, hm'⟩ := h
      rw [← hm', (allocAdmin_current _ r.1 n).2]
      exact (get_or_create_pool_preserves m n).2.2.2.2

/-- `memcpy` copies: inside the destination region the new memory reads
the corresponding source byte. -/
theorem memcpyBytes_mem (m : NeuralMemoryManager) (dst src n i : Nat) (hi : i < n) :
    (memcpyBytes m dst src n).mem (dst + i) = m.mem (src + i) := by
  unfold memcpyBytes
  dsimp only
  rw [if_pos ⟨Nat.le_add_right _ _, by omega⟩]
  congr 1
  omega

/-- C5: `reallocate(ptr, new_size)` case analysis.  (1) Null pointer:
behaves exactly as `allocate(new_size)`.  (2) `new_size == 0`: behaves
exactly as `deallocate(ptr)` and returns null.  (3) Tracked pointer,
`new_size ≤` tracked size: the identical pointer is returned with no other
state change.  (4) Tracked pointer, `new_size >` tracked size: a new block
is allocated, `min(old_size, new_size)` bytes are copied from the old
block into it, the old block is freed, and the new pointer is returned. -/
theorem c5_reallocate_case_analysis (m : NeuralMemoryManager) (ptr new_size sys : Nat) :
    (ptr = 0 → m.reallocate ptr new_size sys = m.allocate new_size) ∧
    (ptr ≠ 0 → new_size = 0 →
      m.reallocate ptr new_size sys = (m.deallocate ptr).map fun m2 => (0, m2)) ∧
    (∀ blk, ptr ≠ 0 → new_size ≠ 0 → lookupA ptr m.allocated_blocks = some blk →
      new_size ≤ blk.size → m.reallocate ptr new_size sys = .ok (ptr, m)) ∧
    (∀ blk p' m1, ptr ≠ 0 → new_size ≠ 0 →
      lookupA ptr m.allocated_blocks = some blk → blk.size < new_size →
      m.allocate new_size = .ok (p', m1) → p' ≠ 0 →
      m.reallocate ptr new_size sys =
        ((memcpyBytes m1 p' ptr (min blk.size new_size)).deallocate ptr).map
          (fun m3 => (p', m3)) ∧
      (∀ i, i < min blk.size new_size →
        (memcpyBytes m1 p' ptr (min blk.size new_size)).mem (p' + i) = m.mem (ptr + i)) ∧
      (∀ m3, (memcpyBytes m1 p' ptr (min blk.size new_size)).deallocate ptr = .ok m3 →
        m3.mem = (memcpyBytes m1 p' ptr (min blk.size new_size)).mem)) := by
  refine ⟨?_, ?_, ?_, ?_⟩
  · intro h0
    subst h0
    simp [NeuralMemoryManager.reallocate]
  · intro hp hn
    subst hn
    simp [NeuralMemoryManager.reallocate, hp]
  · intro blk hp hn hlk hle
    simp only [NeuralMemoryManager.reallocate, hp, hn, if_false]
    rw [hlk]
    dsimp only
    rw [if_pos hle]
  · intro blk p' m1 hp hn hlk hlt halloc hp'
    have hmin : min blk.size new_size = blk.size := Nat.min_eq_left (le_of_lt hlt)
    rw [hmin]
    refine ⟨?_, ?_, ?_⟩
    · simp only [NeuralMemoryManager.reallocate, hp, hn, if_false]
      rw [hlk]
      dsimp only
      rw [if_neg (Nat.not_le.mpr hlt), halloc]
      simp only [Except.bind]
      rw [if_neg hp']
    · intro i hi
      rw [memcpyBytes_mem m1 p' ptr blk.size i hi, allocate_mem m new_size p' m1 halloc]
    · intro m3 hd
      exact deallocate_mem _ _ _ hd

/-- C5 witness: on the default manager and on `c5st` (one live 64-byte
block at `c1p`): null behaves as allocate; size 0 behaves as deallocate
returning null; shrink to 32 returns the identical pointer and state;
growing to 100 equals allocate-copy-free, and the copied bytes agree. -/
theorem c5_reallocate_case_analysis_witness :
    nmmDefault.reallocate 0 256 7 = nmmDefault.allocate 256 ∧
    c5st.reallocate c1p 0 7 = (c5st.deallocate c1p).map (fun m2 => (0, m2)) ∧
    c5st.reallocate c1p 32 7 = .ok (c1p, c5st) ∧
    c5st.allocate 100 = .ok (c5gp, c5gm) ∧
    c5st.reallocate c1p 100 7 =
      ((memcpyBytes c5gm c5gp c1p (min 64 100)).deallocate c1p).map
        (fun m3 => (c5gp, m3)) ∧
    (memcpyBytes c5gm c5gp c1p (min 64 100)).mem (c5gp + 3) = c5st.mem (c1p + 3) := by
  have h1 := (c5_reallocate_case_analysis nmmDefault 0 256 7).1 rfl
  have h2 := (c5_reallocate_case_analysis c5st c1p 0 7).2.1 (by decide) rfl
  have h3 := (c5_reallocate_case_analysis c5st c1p 32 7).2.2.1
    { ptr := 1, size := 64, is_freed := false } (by decide) (by decide) (by decide)
    (by decide)
  have h4 := (c5_reallocate_case_analysis c5st c1p 100 7).2.2.2
    { ptr := 1, size := 64, is_freed := false } c5gp c5gm (by decide) (by decide)
    (by decide) (by decide) rfl (by decide)
  exact ⟨h1, h2, h3, rfl, h4.1, h4.2.1 3 (by decide)⟩
